import Mathlib

/-!
Shallow embedding of the godivert packet/header core (buffer pool, header
views, Packet, capture-session operations) and proofs about it.

Bytes are modelled as naturals (the source's uint8 values are below 256;
where a Go conversion truncates, the model applies `% 256` / `% 65536`
explicitly).  Go byte slices become `List Nat`.  The external WinDivert
driver is an opaque collaborator: each call that crosses the FFI boundary
takes the driver's observable effects (success flag, bytes written, reported
length) as explicit oracle parameters.

Aliasing: in the source every header view's `Raw` is a sub-slice of the
owning packet's `Raw`, so in-place writes through a view are visible in the
packet.  The embedding is functional, so each packet-level mutator updates
the view and overlays the view's bytes back onto the packet's buffer at the
view's offset (`copyAt`), which is the observable effect of the shared
backing array.
-/

namespace GoDivert

/-- const.go: `PacketBufferSize = 65575` (WINDIVERT_MTU_MAX, 40 + 0xFFFF). -/
def PacketBufferSize : Nat := 65575

/-- const.go: `PacketChanCapacity = 256`. -/
def PacketChanCapacity : Nat := 256

/-- A byte buffer: bytes are naturals below 256. -/
abbrev Buffer := List Nat

/-- The global `sync.Pool` of bufferPool.go, modelled as a LIFO list of the
buffers currently available for reuse. -/
abbrev Pool := List Buffer

/-- Observable effect of Go `copy(dst[i:], src)`: the min(len(dst)-i, len(src))
bytes of `src` overwrite `dst` starting at position `i`; the length of `dst`
never changes. -/
def copyAt (dst : List Nat) (i : Nat) (src : List Nat) : List Nat :=
  dst.take i ++ src.take (dst.length - i) ++ dst.drop (i + src.length)

/-- bufferPool.go `GetBuffer`: `bufferPool.Get().([]byte)`.  A `sync.Pool` Get
either hands back a previously `Put` buffer or runs `New`, which allocates
`make([]byte, PacketBufferSize)` (zeroed).  Modelled as popping the most
recently returned buffer, or a fresh zeroed buffer when the pool is empty. -/
def GetBuffer (pool : Pool) : Buffer × Pool :=
  match pool with
  | [] => (List.replicate PacketBufferSize 0, [])
  | b :: rest => (b, rest)

/-- bufferPool.go `ReturnBuffer(buffer, length)`: only a buffer whose length is
`PacketBufferSize` is pooled; the loop `for i := 0; i < length; i++` zeroes the
first `length` bytes before the `Put`.  (`min` guards the indices at which the
Go loop would panic; all callers pass `length ≤ len(buffer)`.)  A buffer of any
other size is dropped without error. -/
def ReturnBuffer (pool : Pool) (buffer : Buffer) (length : Nat) : Pool :=
  if buffer.length = PacketBufferSize then
    (List.replicate (min length buffer.length) 0 ++ buffer.drop length) :: pool
  else pool

/-- The typed error taxonomy of the core (spec §7); the source returns these as
`errors.New` / `fmt.Errorf` values with fixed message shapes. -/
inductive PacketError where
  | protocolNotSupported (protocolID : Nat)
  | handleClosed
  | recvFailed
  | checksumFailed
  | injectionFailed
deriving DecidableEq

namespace header

/-- Protocol numbers (package header; IANA-assigned, spec §6). -/
def ICMPv4 : Nat := 1

/-- TCP protocol number. -/
def TCP : Nat := 6

/-- UDP protocol number. -/
def UDP : Nat := 17

/-- ICMPv6 protocol number. -/
def ICMPv6 : Nat := 58

/-- Modelled from the spec: header/icmpv4.go is not under src/; the ICMPv4
header is fixed-length (8 bytes, protocol-standard layout, spec §4.2/§6). -/
def ICMPv4HeaderLen : Nat := 8

/-- Modelled from the spec: header/udp.go is not under src/; the UDP header is
fixed-length (8 bytes, protocol-standard layout, spec §4.2/§6). -/
def UDPHeaderLen : Nat := 8

/-- Modelled from the spec: header/icmpv6.go is not under src/; the ICMPv6
header is fixed-length (8 bytes, protocol-standard layout, spec §4.2/§6). -/
def ICMPv6HeaderLen : Nat := 8

/-- header/tcp.go `TCPHeader`: `Raw` is the header plus payload, `Payload` the
logically separate payload sub-view, `Modified` the dirty flag. -/
structure TCPHeader where
  Raw : List Nat
  Modified : Bool
  Payload : List Nat
deriving DecidableEq

/-- header/tcp.go `NewTCPHeader(raw)`: header length is the high nibble of
byte 12 times 4; `Payload` is `raw[hdrLen:]`; `Modified` starts at Go's zero
value `false`. -/
def NewTCPHeader (raw : List Nat) : TCPHeader :=
  let hdrLen := (raw.getD 12 0 >>> 4) * 4
  { Raw := raw, Modified := false, Payload := raw.drop hdrLen }

/-- header/tcp.go `TCPHeader.SetPayload(val)`: same-length payloads are copied
in place over `Raw[hdrLen:]`; a different length rebuilds `Raw` as
`Raw[:hdrLen] ++ val`; either way `Payload := val` and `Modified := true`. -/
def TCPHeader.SetPayload (h : TCPHeader) (val : List Nat) : TCPHeader :=
  let hdrLen := (h.Raw.getD 12 0 >>> 4) * 4
  if val.length = h.Payload.length then
    { Raw := copyAt h.Raw hdrLen val, Modified := true, Payload := val }
  else
    { Raw := h.Raw.take hdrLen ++ val, Modified := true, Payload := val }

/-- header/tcp.go `TCPHeader.SrcPort`: big-endian uint16 at bytes 0-1; the
source's error result is always nil. -/
def TCPHeader.SrcPort (h : TCPHeader) : Nat :=
  h.Raw.getD 0 0 * 256 + h.Raw.getD 1 0

/-- header/tcp.go `TCPHeader.DstPort`: big-endian uint16 at bytes 2-3. -/
def TCPHeader.DstPort (h : TCPHeader) : Nat :=
  h.Raw.getD 2 0 * 256 + h.Raw.getD 3 0

/-- header/tcp.go `TCPHeader.SetSrcPort`: sets `Modified`, writes
`uint8(port >> 8)` and `uint8(port & 0xff)` at bytes 0 and 1; the source's
error result is always nil. -/
def TCPHeader.SetSrcPort (h : TCPHeader) (port : Nat) : TCPHeader :=
  { h with Modified := true,
           Raw := (h.Raw.set 0 ((port >>> 8) % 256)).set 1 ((port &&& 0xff) % 256) }

/-- header/tcp.go `TCPHeader.SetDstPort`: bytes 2 and 3. -/
def TCPHeader.SetDstPort (h : TCPHeader) (port : Nat) : TCPHeader :=
  { h with Modified := true,
           Raw := (h.Raw.set 2 ((port >>> 8) % 256)).set 3 ((port &&& 0xff) % 256) }

/-- Go `binary.BigEndian.PutUint32(raw[i:i+4], v)`. -/
def putUint32 (raw : List Nat) (i : Nat) (v : Nat) : List Nat :=
  ((((raw.set i ((v >>> 24) % 256)).set (i + 1) ((v >>> 16) % 256)).set
      (i + 2) ((v >>> 8) % 256)).set (i + 3) (v % 256))

/-- header/tcp.go `TCPHeader.SetSeqNum`: big-endian uint32 at bytes 4-7. -/
def TCPHeader.SetSeqNum (h : TCPHeader) (seqNum : Nat) : TCPHeader :=
  { h with Modified := true, Raw := putUint32 h.Raw 4 seqNum }

/-- header/tcp.go `TCPHeader.SetAckNum`: big-endian uint32 at bytes 8-11. -/
def TCPHeader.SetAckNum (h : TCPHeader) (ackNum : Nat) : TCPHeader :=
  { h with Modified := true, Raw := putUint32 h.Raw 8 ackNum }

/-- header/tcp.go `TCPHeader.NeedNewChecksum`: returns `Modified`. -/
def TCPHeader.NeedNewChecksum (h : TCPHeader) : Bool := h.Modified

/-- Modelled from the spec: header/ipv4.go is not under src/.  An IPv4 header
view holds its byte region and a `Modified` flag (spec §3, §4.2). -/
structure IPv4Header where
  Raw : List Nat
  Modified : Bool
deriving DecidableEq

/-- Modelled from the spec: `NewIPv4Header` wraps the packet's raw bytes with
`Modified` starting false. -/
def NewIPv4Header (raw : List Nat) : IPv4Header :=
  { Raw := raw, Modified := false }

/-- Modelled from the spec: the IPv4 total-length field is the big-endian
16-bit value at bytes 2-3 (spec §6). -/
def IPv4Header.TotalLen (h : IPv4Header) : Nat :=
  h.Raw.getD 2 0 * 256 + h.Raw.getD 3 0

/-- Modelled from the spec: `SetTotalLen` writes the big-endian 16-bit value at
bytes 2-3 and marks the header `Modified` (spec §4.2/§6); the argument is the
uint16 the caller computed. -/
def IPv4Header.SetTotalLen (h : IPv4Header) (v : Nat) : IPv4Header :=
  { Raw := (h.Raw.set 2 ((v >>> 8) % 256)).set 3 (v % 256), Modified := true }

/-- Modelled from the spec: source address at bytes 12-15 (spec §6); setters
mark `Modified` (spec §4.2). -/
def IPv4Header.SetSrcIP (h : IPv4Header) (ip : List Nat) : IPv4Header :=
  { Raw := copyAt h.Raw 12 (ip.take 4), Modified := true }

/-- Modelled from the spec: destination address at bytes 16-19 (spec §6). -/
def IPv4Header.SetDstIP (h : IPv4Header) (ip : List Nat) : IPv4Header :=
  { Raw := copyAt h.Raw 16 (ip.take 4), Modified := true }

/-- Modelled from the spec: header/ipv6.go is not under src/.  An IPv6 header
view holds its byte region and a `Modified` flag (spec §3). -/
structure IPv6Header where
  Raw : List Nat
  Modified : Bool
deriving DecidableEq

/-- Modelled from the spec: `NewIPv6Header` wraps the packet's raw bytes with
`Modified` starting false. -/
def NewIPv6Header (raw : List Nat) : IPv6Header :=
  { Raw := raw, Modified := false }

/-- Modelled from the spec: 16-byte source address at bytes 8-23 (spec §6). -/
def IPv6Header.SetSrcIP (h : IPv6Header) (ip : List Nat) : IPv6Header :=
  { Raw := copyAt h.Raw 8 (ip.take 16), Modified := true }

/-- Modelled from the spec: 16-byte destination address at bytes 24-39. -/
def IPv6Header.SetDstIP (h : IPv6Header) (ip : List Nat) : IPv6Header :=
  { Raw := copyAt h.Raw 24 (ip.take 16), Modified := true }

/-- Modelled from the spec: header/udp.go is not under src/.  A UDP header view
holds its 8-byte region and a `Modified` flag. -/
structure UDPHeader where
  Raw : List Nat
  Modified : Bool
deriving DecidableEq

/-- Modelled from the spec: `NewUDPHeader` wraps the UDP byte region. -/
def NewUDPHeader (raw : List Nat) : UDPHeader :=
  { Raw := raw, Modified := false }

/-- Modelled from the spec: UDP source port, big-endian 16-bit at bytes 0-1. -/
def UDPHeader.SrcPort (h : UDPHeader) : Nat :=
  h.Raw.getD 0 0 * 256 + h.Raw.getD 1 0

/-- Modelled from the spec: UDP destination port at bytes 2-3. -/
def UDPHeader.DstPort (h : UDPHeader) : Nat :=
  h.Raw.getD 2 0 * 256 + h.Raw.getD 3 0

/-- Modelled from the spec: write the UDP source port and mark `Modified`. -/
def UDPHeader.SetSrcPort (h : UDPHeader) (port : Nat) : UDPHeader :=
  { Raw := (h.Raw.set 0 ((port >>> 8) % 256)).set 1 ((port &&& 0xff) % 256),
    Modified := true }

/-- Modelled from the spec: write the UDP destination port and mark
`Modified`. -/
def UDPHeader.SetDstPort (h : UDPHeader) (port : Nat) : UDPHeader :=
  { Raw := (h.Raw.set 2 ((port >>> 8) % 256)).set 3 ((port &&& 0xff) % 256),
    Modified := true }

/-- Modelled from the spec: header/icmpv4.go is not under src/.  An ICMPv4
header view holds its 8-byte region and a `Modified` flag. -/
structure ICMPv4Header where
  Raw : List Nat
  Modified : Bool
deriving DecidableEq

/-- Modelled from the spec: `NewICMPv4Header` wraps the ICMPv4 byte region. -/
def NewICMPv4Header (raw : List Nat) : ICMPv4Header :=
  { Raw := raw, Modified := false }

/-- Modelled from the spec: header/icmpv6.go is not under src/. -/
structure ICMPv6Header where
  Raw : List Nat
  Modified : Bool
deriving DecidableEq

/-- Modelled from the spec: `NewICMPv6Header` wraps the ICMPv6 byte region. -/
def NewICMPv6Header (raw : List Nat) : ICMPv6Header :=
  { Raw := raw, Modified := false }

/-- The source's `header.IPHeader` interface, dispatched at runtime between the
IPv4 and IPv6 implementations; modelled as a closed sum. -/
inductive IPHeader where
  | v4 (h : IPv4Header)
  | v6 (h : IPv6Header)
deriving DecidableEq

/-- `NeedNewChecksum` of the IP header interface: the view's dirty flag. -/
def IPHeader.NeedNewChecksum : IPHeader → Bool
  | .v4 h => h.Modified
  | .v6 h => h.Modified

/-- The view's underlying byte region (`Raw` of whichever implementation). -/
def IPHeader.RawBytes : IPHeader → List Nat
  | .v4 h => h.Raw
  | .v6 h => h.Raw

/-- `SetSrcIP` of the IP header interface. -/
def IPHeader.SetSrcIP : IPHeader → List Nat → IPHeader
  | .v4 h, ip => .v4 (h.SetSrcIP ip)
  | .v6 h, ip => .v6 (h.SetSrcIP ip)

/-- `SetDstIP` of the IP header interface. -/
def IPHeader.SetDstIP : IPHeader → List Nat → IPHeader
  | .v4 h, ip => .v4 (h.SetDstIP ip)
  | .v6 h, ip => .v6 (h.SetDstIP ip)

/-- The source's `header.ProtocolHeader` interface over the transport/control
header implementations; modelled as a closed sum ("absent" is the owning
packet's `Option`). -/
inductive ProtocolHeader where
  | tcp (h : TCPHeader)
  | udp (h : UDPHeader)
  | icmpv4 (h : ICMPv4Header)
  | icmpv6 (h : ICMPv6Header)
deriving DecidableEq

/-- `SrcPort` of the transport interface.  TCP is header/tcp.go (always a nil
error); UDP/ICMP are modelled from the spec: src/ lacks their files, and per
spec §4.2 header-view getters are infallible, the ICMP result value being
unspecified (modelled as 0). -/
def ProtocolHeader.SrcPort : ProtocolHeader → Except PacketError Nat
  | .tcp h => .ok h.SrcPort
  | .udp h => .ok h.SrcPort
  | .icmpv4 _ => .ok 0
  | .icmpv6 _ => .ok 0

/-- `DstPort` of the transport interface (see `ProtocolHeader.SrcPort`). -/
def ProtocolHeader.DstPort : ProtocolHeader → Except PacketError Nat
  | .tcp h => .ok h.DstPort
  | .udp h => .ok h.DstPort
  | .icmpv4 _ => .ok 0
  | .icmpv6 _ => .ok 0

/-- `SetSrcPort` of the transport interface; the TCP/UDP setters never fail,
and the ICMP behaviour is modelled from the spec as a successful no-op (src/
lacks the ICMP files; per spec §4.3 port accessors only fail when there is no
transport header view at all). -/
def ProtocolHeader.SetSrcPort : ProtocolHeader → Nat → ProtocolHeader
  | .tcp h, port => .tcp (h.SetSrcPort port)
  | .udp h, port => .udp (h.SetSrcPort port)
  | .icmpv4 h, _ => .icmpv4 h
  | .icmpv6 h, _ => .icmpv6 h

/-- `SetDstPort` of the transport interface (see `SetSrcPort`). -/
def ProtocolHeader.SetDstPort : ProtocolHeader → Nat → ProtocolHeader
  | .tcp h, port => .tcp (h.SetDstPort port)
  | .udp h, port => .udp (h.SetDstPort port)
  | .icmpv4 h, _ => .icmpv4 h
  | .icmpv6 h, _ => .icmpv6 h

/-- `NeedNewChecksum` of the transport interface: the view's dirty flag. -/
def ProtocolHeader.NeedNewChecksum : ProtocolHeader → Bool
  | .tcp h => h.Modified
  | .udp h => h.Modified
  | .icmpv4 h => h.Modified
  | .icmpv6 h => h.Modified

/-- The view's underlying byte region. -/
def ProtocolHeader.RawBytes : ProtocolHeader → List Nat
  | .tcp h => h.Raw
  | .udp h => h.Raw
  | .icmpv4 h => h.Raw
  | .icmpv6 h => h.Raw

end header

/-- bufferPool.go `Packet`: raw bytes, cached parse results, the `parsed` flag
and the saved backing buffer.  The driver-supplied address record is opaque
metadata the claims never inspect and is omitted.  Go zero values appear where
`Recv` leaves fields unset. -/
structure Packet where
  Raw : List Nat
  PacketLen : Nat
  IpHdr : Option header.IPHeader
  NextHeader : Option header.ProtocolHeader
  ipVersion : Nat
  hdrLen : Nat
  nextHeaderType : Nat
  parsed : Bool
  buffer : List Nat
deriving DecidableEq

/-- bufferPool.go `Packet.ParseHeaders`: byte 0's high nibble selects the IP
version; exactly 4 takes the IPv4 path (header length `(Raw[0]&0xf)<<2`,
protocol from byte 9), anything else the IPv6 path (fixed 40, next-header from
byte 6); the switch on the next-header type builds the matching transport view
or leaves it nil. -/
def Packet.ParseHeaders (p : Packet) : Packet :=
  let ipVersion := p.Raw.getD 0 0 >>> 4
  let hdrLen := if ipVersion = 4 then (p.Raw.getD 0 0 &&& 0xf) <<< 2 else 40
  let nextHeaderType := if ipVersion = 4 then p.Raw.getD 9 0 else p.Raw.getD 6 0
  let ipHdr : header.IPHeader :=
    if ipVersion = 4 then .v4 (header.NewIPv4Header p.Raw)
    else .v6 (header.NewIPv6Header p.Raw)
  let nextHeader : Option header.ProtocolHeader :=
    if nextHeaderType = header.ICMPv4 then
      some (.icmpv4 (header.NewICMPv4Header
        ((p.Raw.drop hdrLen).take header.ICMPv4HeaderLen)))
    else if nextHeaderType = header.TCP then
      some (.tcp (header.NewTCPHeader (p.Raw.drop hdrLen)))
    else if nextHeaderType = header.UDP then
      some (.udp (header.NewUDPHeader
        ((p.Raw.drop hdrLen).take header.UDPHeaderLen)))
    else if nextHeaderType = header.ICMPv6 then
      some (.icmpv6 (header.NewICMPv6Header
        ((p.Raw.drop hdrLen).take header.ICMPv6HeaderLen)))
    else none
  { p with ipVersion := ipVersion, hdrLen := hdrLen,
           nextHeaderType := nextHeaderType, IpHdr := some ipHdr,
           NextHeader := nextHeader, parsed := true }

/-- bufferPool.go `Packet.VerifyParsed`: parse once, lazily. -/
def Packet.VerifyParsed (p : Packet) : Packet :=
  if p.parsed then p else p.ParseHeaders

/-- bufferPool.go `Packet.UpdateTCPHeader`: when the transport view is TCP,
equal lengths copy the view's bytes back over `Raw[hdrLen:]`; otherwise `Raw`
is rebuilt as `Raw[:hdrLen] ++ val`, the IPv4 total-length field is set to
`uint16(len(Raw))` and `PacketLen` to `len(Raw)`. -/
def Packet.UpdateTCPHeader (p : Packet) : Packet :=
  match p.NextHeader with
  | some (.tcp tcpHeader) =>
    let val := tcpHeader.Raw
    let hdrLen := p.hdrLen
    if val.length = (p.Raw.drop hdrLen).length then
      { p with Raw := copyAt p.Raw hdrLen val }
    else
      let raw := p.Raw.take hdrLen ++ val
      let ipHdr : Option header.IPHeader :=
        match p.IpHdr with
        | some (.v4 iPv4Header) =>
          some (.v4 (iPv4Header.SetTotalLen (raw.length % 65536)))
        | other => other
      { p with Raw := raw, IpHdr := ipHdr, PacketLen := raw.length }
  | _ => p

/-- Caller-side composition `packet.NextHeader.(*TCPHeader).SetPayload(val)`:
the TCP view is updated by header/tcp.go `SetPayload`; in the equal-length
branch the view's in-place copy is visible through the aliased slice in the
packet's `Raw` (overlaid at `hdrLen`), while the rebuild branch re-allocates
the view's slice and leaves the packet's `Raw` (and its length) untouched
until `UpdateTCPHeader` reconciles them. -/
def Packet.SetTCPPayload (p : Packet) (val : List Nat) : Packet :=
  match p.NextHeader with
  | some (.tcp th) =>
    let th' := th.SetPayload val
    if val.length = th.Payload.length then
      { p with NextHeader := some (.tcp th'),
               Raw := copyAt p.Raw p.hdrLen th'.Raw }
    else
      { p with NextHeader := some (.tcp th') }
  | _ => p

/-- bufferPool.go `Packet.SrcPort`: ensure parsed; a nil transport view yields
the protocol-not-implemented error, otherwise delegate to the view.  The pair
carries the packet state after the lazy parse. -/
def Packet.SrcPort (p : Packet) : Packet × Except PacketError Nat :=
  let q := p.VerifyParsed
  match q.NextHeader with
  | none => (q, .error (.protocolNotSupported q.nextHeaderType))
  | some h => (q, h.SrcPort)

/-- bufferPool.go `Packet.DstPort` (see `Packet.SrcPort`). -/
def Packet.DstPort (p : Packet) : Packet × Except PacketError Nat :=
  let q := p.VerifyParsed
  match q.NextHeader with
  | none => (q, .error (.protocolNotSupported q.nextHeaderType))
  | some h => (q, h.DstPort)

/-- bufferPool.go `Packet.SetSrcPort`: ensure parsed; error on a nil transport
view, otherwise delegate to the view's setter (whose in-place write lands in
the packet's `Raw` through the aliased slice at offset `hdrLen`). -/
def Packet.SetSrcPort (p : Packet) (port : Nat) : Packet × Option PacketError :=
  let q := p.VerifyParsed
  match q.NextHeader with
  | none => (q, some (.protocolNotSupported q.nextHeaderType))
  | some h =>
    let h' := h.SetSrcPort port
    ({ q with NextHeader := some h',
              Raw := copyAt q.Raw q.hdrLen h'.RawBytes }, none)

/-- bufferPool.go `Packet.SetDstPort` (see `Packet.SetSrcPort`). -/
def Packet.SetDstPort (p : Packet) (port : Nat) : Packet × Option PacketError :=
  let q := p.VerifyParsed
  match q.NextHeader with
  | none => (q, some (.protocolNotSupported q.nextHeaderType))
  | some h =>
    let h' := h.SetDstPort port
    ({ q with NextHeader := some h',
              Raw := copyAt q.Raw q.hdrLen h'.RawBytes }, none)

/-- bufferPool.go `Packet.SetSrcIP`: ensure parsed, delegate to the IP view
(whose `Raw` aliases the packet's `Raw` from offset 0). -/
def Packet.SetSrcIP (p : Packet) (ip : List Nat) : Packet :=
  let q := p.VerifyParsed
  match q.IpHdr with
  | none => q
  | some hd =>
    let hd' := hd.SetSrcIP ip
    { q with IpHdr := some hd', Raw := copyAt q.Raw 0 hd'.RawBytes }

/-- bufferPool.go `Packet.SetDstIP` (see `Packet.SetSrcIP`). -/
def Packet.SetDstIP (p : Packet) (ip : List Nat) : Packet :=
  let q := p.VerifyParsed
  match q.IpHdr with
  | none => q
  | some hd =>
    let hd' := hd.SetDstIP ip
    { q with IpHdr := some hd', Raw := copyAt q.Raw 0 hd'.RawBytes }

/-- windivert.go `WinDivertHandle`; the Go field `open` is a Lean keyword and
is rendered `isOpen`. -/
structure WinDivertHandle where
  handle : Nat
  isOpen : Bool
deriving DecidableEq

/-- Driver-observable outcome of one `winDivertRecv.Call`: the success flag,
the bytes the driver wrote into the buffer from offset 0, and the packet
length it reported. -/
structure RecvOutcome where
  success : Bool
  data : List Nat
  packetLen : Nat
deriving DecidableEq

/-- Driver-observable outcome of one `winDivertSend.Call`. -/
inductive InjectOutcome where
  | ok (sendLen : Nat)
  | fail
deriving DecidableEq

/-- Driver-observable outcome of one `winDivertHelperCalcChecksums.Call`: the
bytes it rewrote in place over `Raw`, the `PacketLen` observed after the call,
and the success flag. -/
structure ChecksumOutcome where
  success : Bool
  newRaw : List Nat
  newPacketLen : Nat
deriving DecidableEq

/-- windivert.go `WinDivertHandle.Recv`: a closed handle fails up front;
otherwise a buffer is taken from the pool, the driver fills it, and on success
the packet wraps `packetBuffer[:packetLen]` with `PacketLen = packetLen` and
the backing buffer saved; on driver failure only the error is returned (the
popped buffer is not put back). -/
def WinDivertHandle.Recv (wd : WinDivertHandle) (pool : Pool)
    (out : RecvOutcome) : Except PacketError Packet × Pool :=
  if !wd.isOpen then (.error .handleClosed, pool)
  else
    let pb := GetBuffer pool
    let buf := copyAt pb.1 0 out.data
    if out.success then
      (.ok { Raw := buf.take out.packetLen, PacketLen := out.packetLen,
             IpHdr := none, NextHeader := none, ipVersion := 0, hdrLen := 0,
             nextHeaderType := 0, parsed := false, buffer := buf }, pb.2)
    else (.error .recvFailed, pb.2)

/-- windivert.go `WinDivertHandle.Send`: a closed handle fails up front without
touching the pool; otherwise `ReturnBuffer(packet.getBuffer(), packet.PacketLen)`
runs after the driver call regardless of its outcome, and the driver's failure
is returned as the error. -/
def WinDivertHandle.Send (wd : WinDivertHandle) (packet : Packet) (pool : Pool)
    (out : InjectOutcome) : Except PacketError Nat × Pool :=
  if !wd.isOpen then (.error .handleClosed, pool)
  else
    let pool' := ReturnBuffer pool packet.buffer packet.PacketLen
    match out with
    | .ok sendLen => (.ok sendLen, pool')
    | .fail => (.error .injectionFailed, pool')

/-- windivert.go `WinDivertHandle.HelperCalcChecksum`: the initial `PacketLen`
is saved; the driver rewrites `Raw` in place and may leave a different
`PacketLen`, which is reset to the saved value when it changed; the driver's
failure is returned as the error. -/
def WinDivertHandle.HelperCalcChecksum (wd : WinDivertHandle) (packet : Packet)
    (out : ChecksumOutcome) : Packet × Option PacketError :=
  let initialPacketLen := packet.PacketLen
  let q : Packet := { packet with Raw := copyAt packet.Raw 0 out.newRaw,
                                  PacketLen := out.newPacketLen }
  let q : Packet :=
    if initialPacketLen ≠ q.PacketLen then { q with PacketLen := initialPacketLen }
    else q
  if out.success then (q, none) else (q, some .checksumFailed)

/-- First half of bufferPool.go `Packet.Send`: when the packet is parsed and
the IP view, or an existing transport view, is flagged modified,
`HelperCalcChecksum` runs and its error is printed and dropped (the source's
`fmt.Println`); the possibly checksum-rewritten packet is what gets
injected. -/
def Packet.sendPrepared (p : Packet) (wd : WinDivertHandle)
    (cs : ChecksumOutcome) : Packet :=
  let ipNeed := match p.IpHdr with
    | some h => h.NeedNewChecksum
    | none => false
  let nextNeed := match p.NextHeader with
    | some h => h.NeedNewChecksum
    | none => false
  let needCs := p.parsed && (ipNeed || (p.NextHeader.isSome && nextNeed))
  if needCs then (wd.HelperCalcChecksum p cs).1 else p

/-- bufferPool.go `Packet.Send`: recompute checksums when needed (dropping any
checksum error) and hand the packet to `wd.Send`. -/
def Packet.Send (p : Packet) (wd : WinDivertHandle) (pool : Pool)
    (cs : ChecksumOutcome) (out : InjectOutcome) : Except PacketError Nat × Pool :=
  wd.Send (p.sendPrepared wd cs) pool out

/-! ### Concrete inputs -/

/-- A minimal 40-byte IPv4+TCP wire packet: version/IHL byte `0x45`
(IPv4, 20-byte header), protocol byte 9 = 6 (TCP), TCP data-offset byte
(index 32 = 20 + 12) `0x50` (20-byte TCP header), destination port 80,
empty payload. -/
def rawIPv4TCP : List Nat :=
  [0x45, 0, 0, 40, 0, 0, 0, 0, 0, 6,
   0, 0, 0, 0, 0, 0, 0, 0, 0, 0,
   0, 0, 0, 80, 0, 0, 0, 0, 0, 0,
   0, 0, 0x50, 0, 0, 0, 0, 0, 0, 0]

/-- An unparsed packet wrapping `rawIPv4TCP`, as a receive would build it. -/
def pkt0 : Packet :=
  ⟨rawIPv4TCP, 40, none, none, 0, 0, 0, false, []⟩

/-- A 20-byte IPv4 packet whose protocol byte 9 is 200 (unassigned). -/
def pkt200 : Packet :=
  ⟨[0x45, 0, 0, 20, 0, 0, 0, 0, 0, 200,
    0, 0, 0, 0, 0, 0, 0, 0, 0, 0], 20, none, none, 0, 0, 0, false, []⟩
/-- An open capture-session handle. -/
def openWD : WinDivertHandle := ⟨0, true⟩

/-- A closed capture-session handle. -/
def closedWD : WinDivertHandle := ⟨0, false⟩

/-- One successful driver receive reporting 20 bytes. -/
def recvOut1 : RecvOutcome := ⟨true, [0x45], 20⟩
/-- A packet backed by a standard pool-sized buffer. -/
def pktPooled : Packet :=
  ⟨rawIPv4TCP, 40, none, none, 0, 0, 0, false,
    List.replicate PacketBufferSize 0⟩
/-- A driver checksum recomputation that reports failure (and rewrites
nothing). -/
def csFail : ChecksumOutcome := ⟨false, [], 40⟩

/-- `pkt0` parsed and then modified (source port set), so that `Send` takes
the checksum-recomputation path. -/
def pktMod : Packet := (pkt0.ParseHeaders.SetSrcPort 9999).1
/-- The IPv4 header length `ParseHeaders` computes: `(Raw[0] & 0xf) << 2`. -/
def ipv4HdrLenOf (raw : List Nat) : Nat := (raw.getD 0 0 &&& 0xf) <<< 2

/-- The TCP header length `NewTCPHeader`/`SetPayload` compute from the TCP
region: `(raw[12] >> 4) * 4`. -/
def tcpHdrLenOf (raw : List Nat) : Nat := (raw.getD 12 0 >>> 4) * 4

/-- The packet's IPv4 total-length field as seen through its IPv4 header view
(0 when the packet has no IPv4 view). -/
def ipv4TotalLenField (p : Packet) : Nat :=
  match p.IpHdr with
  | some (.v4 h) => h.TotalLen
  | _ => 0

/-- The claim's operation sequence: replace the TCP payload through the
packet's TCP view (`SetPayload`), then reconcile with `UpdateTCPHeader`. -/
def afterPayloadSwap (p₀ : Packet) (val : List Nat) : Packet :=
  (p₀.ParseHeaders.SetTCPPayload val).UpdateTCPHeader

/-! ### Helper lemmas -/

lemma copyAt_length (dst : List Nat) (i : Nat) (src : List Nat) :
    (copyAt dst i src).length = dst.length := by
  simp only [copyAt, List.length_append, List.length_take, List.length_drop]
  omega

lemma getD_set_self : ∀ (l : List Nat) (i v d : Nat), i < l.length →
    (l.set i v).getD i d = v
  | [], _, _, _, h => by simp at h
  | _ :: _, 0, _, _, _ => rfl
  | _ :: l, i + 1, v, d, h =>
    getD_set_self l i v d (by simpa using h)

lemma getD_set_ne : ∀ (l : List Nat) (i j v d : Nat), i ≠ j →
    (l.set i v).getD j d = l.getD j d
  | [], _, _, _, _, _ => rfl
  | _ :: _, 0, 0, _, _, h => absurd rfl h
  | _ :: _, 0, _ + 1, _, _, _ => rfl
  | _ :: _, _ + 1, 0, _, _, _ => rfl
  | _ :: l, i + 1, j + 1, v, d, h =>
    getD_set_ne l i j v d (fun hij => h (by omega))

lemma getBuffer_length (pool : Pool)
    (h : ∀ b ∈ pool, b.length = PacketBufferSize) :
    (GetBuffer pool).1.length = PacketBufferSize := by
  cases pool with
  | nil => simp [GetBuffer]
  | cons b rest => simpa [GetBuffer] using h b (by simp)

lemma parseHeaders_raw (p : Packet) : p.ParseHeaders.Raw = p.Raw := rfl

lemma parseHeaders_packetLen (p : Packet) :
    p.ParseHeaders.PacketLen = p.PacketLen := rfl

lemma parseHeaders_parsed (p : Packet) : p.ParseHeaders.parsed = true := rfl

lemma verifyParsed_of_parsed (p : Packet) (h : p.parsed = true) :
    p.VerifyParsed = p := by
  simp [Packet.VerifyParsed, h]

lemma verifyParsed_raw (p : Packet) : p.VerifyParsed.Raw = p.Raw := by
  unfold Packet.VerifyParsed
  split <;> rfl

lemma verifyParsed_packetLen (p : Packet) :
    p.VerifyParsed.PacketLen = p.PacketLen := by
  unfold Packet.VerifyParsed
  split <;> rfl

/-! ### C3: buffer pool round trip -/

/-- C3: releasing a pool-sized buffer with `usedLength = k ≤ PacketBufferSize`
and acquiring again yields a buffer whose first `k` bytes are all zero and
whose length is exactly `PacketBufferSize`; a buffer whose length differs from
`PacketBufferSize` is dropped on release (the pool is unchanged, no error). -/
theorem pool_release_acquire_round_trip (pool : Pool) (buf : Buffer) (k : Nat)
    (hbuf : buf.length = PacketBufferSize) (hk : k ≤ PacketBufferSize) :
    (GetBuffer (ReturnBuffer pool buf k)).1.length = PacketBufferSize ∧
    (∀ i, i < k → (GetBuffer (ReturnBuffer pool buf k)).1.getD i 1 = 0) ∧
    (∀ buf2 : Buffer, buf2.length ≠ PacketBufferSize →
      ReturnBuffer pool buf2 k = pool) := by
  have hmin : min k buf.length = k := by omega
  refine ⟨?_, ?_, ?_⟩
  · simp [ReturnBuffer, hbuf, GetBuffer, hmin]
    omega
  · intro i hi
    simp only [ReturnBuffer, hbuf, if_pos, GetBuffer, hmin]
    rw [List.getD_append _ _ _ _ (by simp; omega)]
    rw [List.getD_eq_getElem _ _ (by simp; omega)]
    simp
  · intro buf2 h2
    simp [ReturnBuffer, h2]

/-- C3 witness: a fresh pool-sized buffer released with `usedLength = 3` into
the empty pool and re-acquired. -/
theorem pool_release_acquire_round_trip_witness :
    ((List.replicate PacketBufferSize 0).length = PacketBufferSize ∧
      3 ≤ PacketBufferSize) ∧
    ((GetBuffer (ReturnBuffer [] (List.replicate PacketBufferSize 0) 3)).1.length
        = PacketBufferSize ∧
      (∀ i, i < 3 →
        (GetBuffer (ReturnBuffer [] (List.replicate PacketBufferSize 0) 3)).1.getD i 1
          = 0) ∧
      (∀ buf2 : Buffer, buf2.length ≠ PacketBufferSize →
        ReturnBuffer [] buf2 3 = [])) :=
  ⟨⟨by simp, by norm_num [PacketBufferSize]⟩,
    pool_release_acquire_round_trip [] (List.replicate PacketBufferSize 0) 3
      (by simp) (by norm_num [PacketBufferSize])⟩

/-! ### C8: the Modified flag -/

/-- C8: a freshly constructed TCP header view has `Modified = false`, and after
exactly one setter call (`SetSrcPort`, `SetDstPort`, `SetSeqNum`, `SetAckNum`
or `SetPayload`) it is `true`, regardless of whether the written value equals
the previous one (the values are universally quantified, so in particular the
old values are covered). -/
theorem modified_flag_lifecycle (raw val : List Nat) (port seqNum ackNum : Nat) :
    (header.NewTCPHeader raw).Modified = false ∧
    ((header.NewTCPHeader raw).SetSrcPort port).Modified = true ∧
    ((header.NewTCPHeader raw).SetDstPort port).Modified = true ∧
    ((header.NewTCPHeader raw).SetSeqNum seqNum).Modified = true ∧
    ((header.NewTCPHeader raw).SetAckNum ackNum).Modified = true ∧
    ((header.NewTCPHeader raw).SetPayload val).Modified = true := by
  refine ⟨rfl, rfl, rfl, rfl, rfl, ?_⟩
  unfold header.TCPHeader.SetPayload
  split <;> rfl

/-! ### C9: checksum recomputation preserves PacketLen -/

lemma helperCalcChecksum_packetLen (wd : WinDivertHandle) (p : Packet)
    (out : ChecksumOutcome) :
    (wd.HelperCalcChecksum p out).1.PacketLen = p.PacketLen := by
  unfold WinDivertHandle.HelperCalcChecksum
  cases hs : out.success <;> by_cases h : p.PacketLen = out.newPacketLen <;>
    simp [hs, h]

lemma helperCalcChecksum_buffer (wd : WinDivertHandle) (p : Packet)
    (out : ChecksumOutcome) :
    (wd.HelperCalcChecksum p out).1.buffer = p.buffer := by
  unfold WinDivertHandle.HelperCalcChecksum
  cases hs : out.success <;> by_cases h : p.PacketLen = out.newPacketLen <;>
    simp [hs, h]

/-- C9: after `HelperCalcChecksum` returns, the packet's `PacketLen` equals its
value from before the call, whatever length the external recompute routine
left behind (the routine's observable effects are universally quantified in
`out`). -/
theorem helperCalcChecksum_resets_packetLen (wd : WinDivertHandle) (p : Packet)
    (out : ChecksumOutcome) :
    (wd.HelperCalcChecksum p out).1.PacketLen = p.PacketLen :=
  helperCalcChecksum_packetLen wd p out

/-! ### C10: version dispatch in ParseHeaders -/

/-- C10: any byte-0 high nibble other than 4 takes the IPv6 path of
`ParseHeaders` (cached IP header length 40, next-header type from byte 6, an
IPv6 header view); only the exact value 4 selects the IPv4 path (header length
= low nibble of byte 0 times 4, protocol from byte 9, an IPv4 view). -/
theorem parseHeaders_version_dispatch (p : Packet) :
    (p.Raw.getD 0 0 >>> 4 ≠ 4 →
      p.ParseHeaders.ipVersion = p.Raw.getD 0 0 >>> 4 ∧
      p.ParseHeaders.hdrLen = 40 ∧
      p.ParseHeaders.nextHeaderType = p.Raw.getD 6 0 ∧
      p.ParseHeaders.IpHdr = some (.v6 (header.NewIPv6Header p.Raw))) ∧
    (p.Raw.getD 0 0 >>> 4 = 4 →
      p.ParseHeaders.ipVersion = 4 ∧
      p.ParseHeaders.hdrLen = (p.Raw.getD 0 0 &&& 0xf) <<< 2 ∧
      p.ParseHeaders.nextHeaderType = p.Raw.getD 9 0 ∧
      p.ParseHeaders.IpHdr = some (.v4 (header.NewIPv4Header p.Raw))) := by
  constructor
  · intro h
    rw [List.getD_eq_getElem?_getD] at h
    refine ⟨rfl, ?_, ?_, ?_⟩ <;> simp [Packet.ParseHeaders, h]
  · intro h
    rw [List.getD_eq_getElem?_getD] at h
    refine ⟨?_, ?_, ?_, ?_⟩ <;> simp [Packet.ParseHeaders, h]

/-- C10 witness: a buffer whose byte-0 high nibble is 9 (neither 4 nor 6)
takes the IPv6 path, and one whose high nibble is 4 takes the IPv4 path. -/
theorem parseHeaders_version_dispatch_witness :
    (((⟨[0x90, 0, 0, 0, 0, 0, 7, 0, 0, 0], 10, none, none, 0, 0, 0, false, []⟩ :
        Packet).Raw.getD 0 0 >>> 4 ≠ 4) ∧
      (⟨[0x90, 0, 0, 0, 0, 0, 7, 0, 0, 0], 10, none, none, 0, 0, 0, false, []⟩ :
        Packet).ParseHeaders.hdrLen = 40 ∧
      (⟨[0x90, 0, 0, 0, 0, 0, 7, 0, 0, 0], 10, none, none, 0, 0, 0, false, []⟩ :
        Packet).ParseHeaders.nextHeaderType = 7) ∧
    (((⟨[0x47, 0, 0, 0, 0, 0, 0, 0, 0, 17], 10, none, none, 0, 0, 0, false, []⟩ :
        Packet).Raw.getD 0 0 >>> 4 = 4) ∧
      (⟨[0x47, 0, 0, 0, 0, 0, 0, 0, 0, 17], 10, none, none, 0, 0, 0, false, []⟩ :
        Packet).ParseHeaders.hdrLen = 28 ∧
      (⟨[0x47, 0, 0, 0, 0, 0, 0, 0, 0, 17], 10, none, none, 0, 0, 0, false, []⟩ :
        Packet).ParseHeaders.nextHeaderType = 17) :=
  ⟨⟨by decide,
    ((parseHeaders_version_dispatch _).1 (by decide)).2.1,
    by simpa using ((parseHeaders_version_dispatch _).1 (by decide)).2.2.1⟩,
   ⟨by decide,
    by simpa using ((parseHeaders_version_dispatch _).2 (by decide)).2.1,
    by simpa using ((parseHeaders_version_dispatch _).2 (by decide)).2.2.1⟩⟩

/-! ### C7: idempotence of parsing -/

/-- C7 counterexample: a parsed packet whose source port was then set is still
in the `parsed` state, yet a second direct call to `ParseHeaders` does change
its observable state — the rebuilt TCP view's `Modified` flag is reset to
`false` — so the claimed universal no-op property fails at this input. -/
theorem parse_second_call_changes_modified_cex :
    (pkt0.ParseHeaders.SetSrcPort 9999).1.parsed = true ∧
    (pkt0.ParseHeaders.SetSrcPort 9999).1.ParseHeaders ≠
      (pkt0.ParseHeaders.SetSrcPort 9999).1 := by
  constructor
  · decide
  · decide

/-- C7 (amended): re-parsing through `VerifyParsed` — the "ensure parsed" path
every accessor takes — is a no-op on an already parsed packet, and an
immediate second direct `ParseHeaders` call (with no intervening mutation)
leaves the packet unchanged; a direct `ParseHeaders` call after a setter,
however, rebuilds the header views and resets their `Modified` flags. -/
theorem parse_idempotent (p q : Packet) (hp : p.parsed = true) :
    p.VerifyParsed = p ∧ q.ParseHeaders.ParseHeaders = q.ParseHeaders :=
  ⟨verifyParsed_of_parsed p hp, rfl⟩

/-- C7 witness: the amended statement at a concrete freshly parsed packet. -/
theorem parse_idempotent_witness :
    pkt0.ParseHeaders.parsed = true ∧
    (pkt0.ParseHeaders.VerifyParsed = pkt0.ParseHeaders ∧
      pkt0.ParseHeaders.ParseHeaders = pkt0.ParseHeaders) :=
  ⟨rfl, parse_idempotent pkt0.ParseHeaders pkt0.ParseHeaders rfl⟩

/-! ### C5: ProtocolNotSupported iff no transport view -/

lemma srcPort_error_iff (q : Packet) (hq : q.parsed = true) :
    (∃ id, q.SrcPort.2 = .error (.protocolNotSupported id)) ↔
      q.NextHeader = none := by
  unfold Packet.SrcPort
  rw [verifyParsed_of_parsed q hq]
  rcases hnh : q.NextHeader with _ | h
  · simp [hnh]
  · cases h <;> simp [hnh, header.ProtocolHeader.SrcPort]

lemma dstPort_error_iff (q : Packet) (hq : q.parsed = true) :
    (∃ id, q.DstPort.2 = .error (.protocolNotSupported id)) ↔
      q.NextHeader = none := by
  unfold Packet.DstPort
  rw [verifyParsed_of_parsed q hq]
  rcases hnh : q.NextHeader with _ | h
  · simp [hnh]
  · cases h <;> simp [hnh, header.ProtocolHeader.DstPort]

lemma setSrcPort_error_iff (q : Packet) (port : Nat) (hq : q.parsed = true) :
    (∃ id, (q.SetSrcPort port).2 = some (.protocolNotSupported id)) ↔
      q.NextHeader = none := by
  unfold Packet.SetSrcPort
  rw [verifyParsed_of_parsed q hq]
  rcases hnh : q.NextHeader with _ | h
  · simp [hnh]
  · simp [hnh]

lemma setDstPort_error_iff (q : Packet) (port : Nat) (hq : q.parsed = true) :
    (∃ id, (q.SetDstPort port).2 = some (.protocolNotSupported id)) ↔
      q.NextHeader = none := by
  unfold Packet.SetDstPort
  rw [verifyParsed_of_parsed q hq]
  rcases hnh : q.NextHeader with _ | h
  · simp [hnh]
  · simp [hnh]

lemma parse_nextHeader_none_iff (p : Packet) :
    p.ParseHeaders.NextHeader = none ↔
      (p.ParseHeaders.nextHeaderType ≠ header.ICMPv4 ∧
       p.ParseHeaders.nextHeaderType ≠ header.TCP ∧
       p.ParseHeaders.nextHeaderType ≠ header.UDP ∧
       p.ParseHeaders.nextHeaderType ≠ header.ICMPv6) := by
  simp only [Packet.ParseHeaders]
  split_ifs <;> simp_all

/-- C5: on any parsed packet the four port accessors return a
`ProtocolNotSupported` error exactly when there is no transport header view,
the view is absent exactly when the next-protocol value is unrecognized (not
ICMPv4/TCP/UDP/ICMPv6 — e.g. the unassigned value 200), and `ParseHeaders`
itself still succeeds (it always reaches the `parsed` state). -/
theorem port_accessors_protocolNotSupported_iff (p : Packet) (port : Nat) :
    ((∃ id, p.ParseHeaders.SrcPort.2 = .error (.protocolNotSupported id)) ↔
      p.ParseHeaders.NextHeader = none) ∧
    ((∃ id, p.ParseHeaders.DstPort.2 = .error (.protocolNotSupported id)) ↔
      p.ParseHeaders.NextHeader = none) ∧
    ((∃ id, (p.ParseHeaders.SetSrcPort port).2 =
        some (.protocolNotSupported id)) ↔
      p.ParseHeaders.NextHeader = none) ∧
    ((∃ id, (p.ParseHeaders.SetDstPort port).2 =
        some (.protocolNotSupported id)) ↔
      p.ParseHeaders.NextHeader = none) ∧
    (p.ParseHeaders.NextHeader = none ↔
      (p.ParseHeaders.nextHeaderType ≠ header.ICMPv4 ∧
       p.ParseHeaders.nextHeaderType ≠ header.TCP ∧
       p.ParseHeaders.nextHeaderType ≠ header.UDP ∧
       p.ParseHeaders.nextHeaderType ≠ header.ICMPv6)) ∧
    p.ParseHeaders.parsed = true :=
  ⟨srcPort_error_iff _ rfl, dstPort_error_iff _ rfl,
   setSrcPort_error_iff _ port rfl, setDstPort_error_iff _ port rfl,
   parse_nextHeader_none_iff p, rfl⟩

/-! ### C2: PacketLen equals len(Raw) -/

lemma setSrcPort_len (p : Packet) (port : Nat) :
    (p.SetSrcPort port).1.PacketLen = p.PacketLen ∧
    (p.SetSrcPort port).1.Raw.length = p.Raw.length := by
  unfold Packet.SetSrcPort
  rcases hnh : p.VerifyParsed.NextHeader with _ | h
  · simp [hnh, verifyParsed_packetLen, verifyParsed_raw]
  · simp [hnh, verifyParsed_packetLen, verifyParsed_raw, copyAt_length]

lemma setDstPort_len (p : Packet) (port : Nat) :
    (p.SetDstPort port).1.PacketLen = p.PacketLen ∧
    (p.SetDstPort port).1.Raw.length = p.Raw.length := by
  unfold Packet.SetDstPort
  rcases hnh : p.VerifyParsed.NextHeader with _ | h
  · simp [hnh, verifyParsed_packetLen, verifyParsed_raw]
  · simp [hnh, verifyParsed_packetLen, verifyParsed_raw, copyAt_length]

lemma setSrcIP_len (p : Packet) (ip : List Nat) :
    (p.SetSrcIP ip).PacketLen = p.PacketLen ∧
    (p.SetSrcIP ip).Raw.length = p.Raw.length := by
  unfold Packet.SetSrcIP
  rcases hip : p.VerifyParsed.IpHdr with _ | hd
  · simp [hip, verifyParsed_packetLen, verifyParsed_raw]
  · simp [hip, verifyParsed_packetLen, verifyParsed_raw, copyAt_length]

lemma setDstIP_len (p : Packet) (ip : List Nat) :
    (p.SetDstIP ip).PacketLen = p.PacketLen ∧
    (p.SetDstIP ip).Raw.length = p.Raw.length := by
  unfold Packet.SetDstIP
  rcases hip : p.VerifyParsed.IpHdr with _ | hd
  · simp [hip, verifyParsed_packetLen, verifyParsed_raw]
  · simp [hip, verifyParsed_packetLen, verifyParsed_raw, copyAt_length]

lemma setTCPPayload_len (p : Packet) (val : List Nat) :
    (p.SetTCPPayload val).PacketLen = p.PacketLen ∧
    (p.SetTCPPayload val).Raw.length = p.Raw.length := by
  unfold Packet.SetTCPPayload
  rcases hnh : p.NextHeader with _ | h
  · simp [hnh]
  · cases h with
    | tcp th =>
      by_cases hl : val.length = th.Payload.length <;>
        simp [hnh, hl, copyAt_length]
    | udp h => simp [hnh]
    | icmpv4 h => simp [hnh]
    | icmpv6 h => simp [hnh]

lemma updateTCPHeader_inv (p : Packet) (hp : p.PacketLen = p.Raw.length) :
    p.UpdateTCPHeader.PacketLen = p.UpdateTCPHeader.Raw.length := by
  unfold Packet.UpdateTCPHeader
  rcases hnh : p.NextHeader with _ | h
  · simpa [hnh] using hp
  · cases h with
    | tcp th =>
      by_cases hl : th.Raw.length = p.Raw.length - p.hdrLen
      · simpa [hnh, hl, copyAt_length] using hp
      · simp [hnh, hl]
    | udp h => simpa [hnh] using hp
    | icmpv4 h => simpa [hnh] using hp
    | icmpv6 h => simpa [hnh] using hp

lemma recv_inv (wd : WinDivertHandle) (pool : Pool) (out : RecvOutcome)
    (hopen : wd.isOpen = true)
    (hpool : ∀ b ∈ pool, b.length = PacketBufferSize)
    (hlen : out.packetLen ≤ PacketBufferSize) :
    ∀ pkt, (wd.Recv pool out).1 = .ok pkt → pkt.PacketLen = pkt.Raw.length := by
  intro pkt hpkt
  have hb := getBuffer_length pool hpool
  rcases hs : out.success with _ | _ <;>
    simp only [WinDivertHandle.Recv, hopen, hs, Bool.not_true, Bool.false_eq_true,
      if_false, if_true] at hpkt
  · exact absurd hpkt (by simp)
  · rw [Except.ok.injEq] at hpkt
    rw [← hpkt]
    simp [copyAt_length, hb]
    omega

/-- C2: the invariant `PacketLen = len(Raw)` holds for every packet `Recv`
constructs, and is preserved by every public mutation: the port and address
setters, TCP payload replacement (`SetPayload` through the packet's TCP view)
and `UpdateTCPHeader`, alone or composed. -/
theorem packetLen_eq_raw_length_invariant
    (wd : WinDivertHandle) (pool : Pool) (out : RecvOutcome) (p : Packet)
    (port : Nat) (ip val : List Nat)
    (hopen : wd.isOpen = true)
    (hpool : ∀ b ∈ pool, b.length = PacketBufferSize)
    (hlen : out.packetLen ≤ PacketBufferSize)
    (hp : p.PacketLen = p.Raw.length) :
    (∀ pkt, (wd.Recv pool out).1 = .ok pkt → pkt.PacketLen = pkt.Raw.length) ∧
    (p.SetSrcPort port).1.PacketLen = (p.SetSrcPort port).1.Raw.length ∧
    (p.SetDstPort port).1.PacketLen = (p.SetDstPort port).1.Raw.length ∧
    (p.SetSrcIP ip).PacketLen = (p.SetSrcIP ip).Raw.length ∧
    (p.SetDstIP ip).PacketLen = (p.SetDstIP ip).Raw.length ∧
    (p.SetTCPPayload val).PacketLen = (p.SetTCPPayload val).Raw.length ∧
    (p.SetTCPPayload val).UpdateTCPHeader.PacketLen =
      (p.SetTCPPayload val).UpdateTCPHeader.Raw.length ∧
    p.UpdateTCPHeader.PacketLen = p.UpdateTCPHeader.Raw.length := by
  refine ⟨recv_inv wd pool out hopen hpool hlen, ?_, ?_, ?_, ?_, ?_, ?_, ?_⟩
  · rw [(setSrcPort_len p port).1, (setSrcPort_len p port).2]; exact hp
  · rw [(setDstPort_len p port).1, (setDstPort_len p port).2]; exact hp
  · rw [(setSrcIP_len p ip).1, (setSrcIP_len p ip).2]; exact hp
  · rw [(setDstIP_len p ip).1, (setDstIP_len p ip).2]; exact hp
  · rw [(setTCPPayload_len p val).1, (setTCPPayload_len p val).2]; exact hp
  · exact updateTCPHeader_inv _ (by
      rw [(setTCPPayload_len p val).1, (setTCPPayload_len p val).2]; exact hp)
  · exact updateTCPHeader_inv p hp

/-- C2 witness: the invariant at a concrete receive and concrete mutations of
`pkt0`. -/
theorem packetLen_eq_raw_length_invariant_witness :
    (openWD.isOpen = true ∧ (∀ b ∈ ([] : Pool), b.length = PacketBufferSize) ∧
      recvOut1.packetLen ≤ PacketBufferSize ∧
      pkt0.PacketLen = pkt0.Raw.length) ∧
    ((∀ pkt, (openWD.Recv [] recvOut1).1 = .ok pkt →
        pkt.PacketLen = pkt.Raw.length) ∧
      (pkt0.SetSrcPort 80).1.PacketLen = (pkt0.SetSrcPort 80).1.Raw.length ∧
      (pkt0.SetDstPort 80).1.PacketLen = (pkt0.SetDstPort 80).1.Raw.length ∧
      (pkt0.SetSrcIP [10, 0, 0, 1]).PacketLen =
        (pkt0.SetSrcIP [10, 0, 0, 1]).Raw.length ∧
      (pkt0.SetDstIP [10, 0, 0, 1]).PacketLen =
        (pkt0.SetDstIP [10, 0, 0, 1]).Raw.length ∧
      (pkt0.SetTCPPayload [1, 2]).PacketLen =
        (pkt0.SetTCPPayload [1, 2]).Raw.length ∧
      (pkt0.SetTCPPayload [1, 2]).UpdateTCPHeader.PacketLen =
        (pkt0.SetTCPPayload [1, 2]).UpdateTCPHeader.Raw.length ∧
      pkt0.UpdateTCPHeader.PacketLen = pkt0.UpdateTCPHeader.Raw.length) :=
  ⟨⟨rfl, by simp, by norm_num [recvOut1, PacketBufferSize], rfl⟩,
    packetLen_eq_raw_length_invariant openWD [] recvOut1 pkt0 80 [10, 0, 0, 1]
      [1, 2] rfl (by simp) (by norm_num [recvOut1, PacketBufferSize]) rfl⟩

/-! ### C4: Send and the buffer pool -/

/-- C4 counterexample: a `Send` on a closed session returns the handle-closed
error up front and leaves the pool untouched — the packet's buffer is not
returned to the pool — refuting the claim for the closed session state. -/
theorem send_closed_does_not_return_buffer_cex :
    (closedWD.Send pkt0 [] (.ok 40)).2 = [] ∧
    pkt0.buffer ∉ (closedWD.Send pkt0 [] (.ok 40)).2 ∧
    (closedWD.Send pkt0 [] (.ok 40)).1 = .error .handleClosed := by
  refine ⟨rfl, ?_, rfl⟩
  intro hmem
  simp [WinDivertHandle.Send, closedWD] at hmem

/-- C4 (amended): when the session is open, `Send` hands the packet's buffer
to `ReturnBuffer` afterward regardless of the injection outcome (a buffer of
the pool's standard size is therefore zeroed up to `PacketLen` and pooled);
when the session is closed, `Send` fails up front and the pool is
unchanged. -/
theorem send_returns_buffer_when_open (wd : WinDivertHandle) (p : Packet)
    (pool : Pool) (out : InjectOutcome) (hopen : wd.isOpen = true) :
    (wd.Send p pool out).2 = ReturnBuffer pool p.buffer p.PacketLen ∧
    (p.buffer.length = PacketBufferSize →
      (wd.Send p pool out).2 =
        (List.replicate (min p.PacketLen p.buffer.length) 0 ++
          p.buffer.drop p.PacketLen) :: pool) ∧
    (∀ wdc : WinDivertHandle, wdc.isOpen = false →
      (wdc.Send p pool out).2 = pool) := by
  refine ⟨?_, ?_, ?_⟩
  · cases out <;> simp [WinDivertHandle.Send, hopen]
  · intro hb
    cases out <;> simp [WinDivertHandle.Send, hopen, ReturnBuffer, hb]
  · intro wdc hc
    cases out <;> simp [WinDivertHandle.Send, hc]

/-- C4 witness: the amended statement at an open handle, a failing injection,
and a packet with a standard pool-sized buffer (whose release is observed). -/
theorem send_returns_buffer_when_open_witness :
    (openWD.isOpen = true ∧ pktPooled.buffer.length = PacketBufferSize) ∧
    ((openWD.Send pktPooled [] .fail).2 =
        ReturnBuffer [] pktPooled.buffer pktPooled.PacketLen ∧
      (openWD.Send pktPooled [] .fail).2 =
        (List.replicate (min pktPooled.PacketLen pktPooled.buffer.length) 0 ++
          pktPooled.buffer.drop pktPooled.PacketLen) :: []) :=
  ⟨⟨rfl, by simp [pktPooled]⟩,
    (send_returns_buffer_when_open openWD pktPooled [] .fail rfl).1,
    (send_returns_buffer_when_open openWD pktPooled [] .fail rfl).2.1
      (by simp [pktPooled])⟩

/-! ### C6: surfacing of driver failures during Send -/

lemma sendPrepared_buffer (p : Packet) (wd : WinDivertHandle)
    (cs : ChecksumOutcome) : (p.sendPrepared wd cs).buffer = p.buffer := by
  simp only [Packet.sendPrepared]
  split
  · exact helperCalcChecksum_buffer wd p cs
  · rfl

lemma sendPrepared_packetLen (p : Packet) (wd : WinDivertHandle)
    (cs : ChecksumOutcome) : (p.sendPrepared wd cs).PacketLen = p.PacketLen := by
  simp only [Packet.sendPrepared]
  split
  · exact helperCalcChecksum_packetLen wd p cs
  · rfl

/-- C6 counterexample: a parsed-and-modified packet sent through an open
session while the checksum recomputation reports failure and the injection
succeeds: `Packet.Send` returns success — the `ChecksumFailed` report is
printed and swallowed, never surfaced to the caller. -/
theorem checksum_failure_not_surfaced_cex :
    csFail.success = false ∧
    (pktMod.Send openWD [] csFail (.ok 40)).1 = .ok 40 :=
  ⟨rfl, rfl⟩

/-- C6 (amended): through an open session, an `InjectionFailed` report is
surfaced as the error returned to the caller of `Send`, and the injection
outcome alone determines the result — a `ChecksumFailed` report from the
checksum recomputation is printed and dropped by `Packet.Send`, whatever
`cs` reports — while the buffer is released to the pool either way. -/
theorem send_surfaces_injection_failure_only (p : Packet)
    (wd : WinDivertHandle) (pool : Pool) (cs : ChecksumOutcome) (n : Nat)
    (hopen : wd.isOpen = true) :
    (p.Send wd pool cs .fail).1 = .error .injectionFailed ∧
    (p.Send wd pool cs (.ok n)).1 = .ok n ∧
    (p.Send wd pool cs .fail).2 = ReturnBuffer pool p.buffer p.PacketLen ∧
    (p.Send wd pool cs (.ok n)).2 = ReturnBuffer pool p.buffer p.PacketLen := by
  refine ⟨?_, ?_, ?_, ?_⟩ <;>
    simp [Packet.Send, WinDivertHandle.Send, hopen, sendPrepared_buffer,
      sendPrepared_packetLen]

/-- C6 witness: the amended statement at the concrete modified packet, open
handle and failing checksum recomputation. -/
theorem send_surfaces_injection_failure_only_witness :
    openWD.isOpen = true ∧
    ((pktMod.Send openWD [] csFail .fail).1 = .error .injectionFailed ∧
      (pktMod.Send openWD [] csFail (.ok 7)).1 = .ok 7 ∧
      (pktMod.Send openWD [] csFail .fail).2 =
        ReturnBuffer [] pktMod.buffer pktMod.PacketLen ∧
      (pktMod.Send openWD [] csFail (.ok 7)).2 =
        ReturnBuffer [] pktMod.buffer pktMod.PacketLen) :=
  ⟨rfl, send_surfaces_injection_failure_only pktMod openWD [] csFail 7 rfl⟩

/-! ### C1: TCP payload replacement and the length fields -/

lemma u16_put_get (n : Nat) (h : n < 65536) :
    ((n >>> 8) % 256) * 256 + n % 256 = n := by
  have h8 : n >>> 8 = n / 256 := by
    rw [Nat.shiftRight_eq_div_pow]
  rw [h8, Nat.mod_eq_of_lt (by omega)]
  omega

lemma parse_ipv4_tcp (p₀ : Packet) (hv : p₀.Raw.getD 0 0 >>> 4 = 4)
    (hproto : p₀.Raw.getD 9 0 = 6) :
    p₀.ParseHeaders =
      { p₀ with ipVersion := 4,
                hdrLen := ipv4HdrLenOf p₀.Raw,
                nextHeaderType := 6,
                IpHdr := some (.v4 (header.NewIPv4Header p₀.Raw)),
                NextHeader := some (.tcp (header.NewTCPHeader
                  (p₀.Raw.drop (ipv4HdrLenOf p₀.Raw)))),
                parsed := true } := by
  rw [List.getD_eq_getElem?_getD] at hv hproto
  simp [Packet.ParseHeaders, hv, hproto, header.ICMPv4, header.TCP,
    ipv4HdrLenOf]

lemma setPayload_eq_raw (th : header.TCPHeader) (val : List Nat)
    (hc : val.length = th.Payload.length) :
    th.SetPayload val =
      { Raw := copyAt th.Raw ((th.Raw.getD 12 0 >>> 4) * 4) val,
        Modified := true, Payload := val } := by
  simp only [header.TCPHeader.SetPayload]
  rw [if_pos hc]

lemma setPayload_ne_raw (th : header.TCPHeader) (val : List Nat)
    (hc : val.length ≠ th.Payload.length) :
    th.SetPayload val =
      { Raw := th.Raw.take ((th.Raw.getD 12 0 >>> 4) * 4) ++ val,
        Modified := true, Payload := val } := by
  simp only [header.TCPHeader.SetPayload]
  rw [if_neg hc]

lemma setTCPPayload_eq (p : Packet) (th : header.TCPHeader) (val : List Nat)
    (hnh : p.NextHeader = some (.tcp th)) (hc : val.length = th.Payload.length) :
    p.SetTCPPayload val =
      { p with NextHeader := some (.tcp (th.SetPayload val)),
               Raw := copyAt p.Raw p.hdrLen (th.SetPayload val).Raw } := by
  simp only [Packet.SetTCPPayload, hnh]
  rw [if_pos hc]

lemma setTCPPayload_ne (p : Packet) (th : header.TCPHeader) (val : List Nat)
    (hnh : p.NextHeader = some (.tcp th)) (hc : val.length ≠ th.Payload.length) :
    p.SetTCPPayload val =
      { p with NextHeader := some (.tcp (th.SetPayload val)) } := by
  simp only [Packet.SetTCPPayload, hnh]
  rw [if_neg hc]

lemma updateTCP_copy (q : Packet) (th : header.TCPHeader)
    (hnh : q.NextHeader = some (.tcp th))
    (heq : th.Raw.length = (q.Raw.drop q.hdrLen).length) :
    q.UpdateTCPHeader = { q with Raw := copyAt q.Raw q.hdrLen th.Raw } := by
  simp only [Packet.UpdateTCPHeader, hnh]
  rw [if_pos heq]

lemma updateTCP_rebuild (q : Packet) (th : header.TCPHeader)
    (hnh : q.NextHeader = some (.tcp th))
    (hne : th.Raw.length ≠ (q.Raw.drop q.hdrLen).length) :
    q.UpdateTCPHeader =
      { q with Raw := q.Raw.take q.hdrLen ++ th.Raw,
               IpHdr := match q.IpHdr with
                 | some (.v4 h4) => some (.v4 (h4.SetTotalLen
                     ((q.Raw.take q.hdrLen ++ th.Raw).length % 65536)))
                 | other => other,
               PacketLen := (q.Raw.take q.hdrLen ++ th.Raw).length } := by
  simp only [Packet.UpdateTCPHeader, hnh]
  rw [if_neg hne]

lemma newTCP_payload_length (raw : List Nat) :
    (header.NewTCPHeader raw).Payload.length =
      raw.length - tcpHdrLenOf raw := by
  simp only [header.NewTCPHeader, List.length_drop, tcpHdrLenOf]

lemma swap_same_core (p : Packet) (val : List Nat)
    (hnh : p.NextHeader =
      some (.tcp (header.NewTCPHeader (p.Raw.drop p.hdrLen))))
    (hsame : val.length = (p.Raw.drop p.hdrLen).length -
      tcpHdrLenOf (p.Raw.drop p.hdrLen)) :
    (p.SetTCPPayload val).UpdateTCPHeader.PacketLen = p.PacketLen ∧
    (p.SetTCPPayload val).UpdateTCPHeader.Raw.length = p.Raw.length := by
  have hc : val.length =
      (header.NewTCPHeader (p.Raw.drop p.hdrLen)).Payload.length := by
    rw [newTCP_payload_length]
    exact hsame
  have h2 := setPayload_eq_raw (header.NewTCPHeader (p.Raw.drop p.hdrLen)) val hc
  have h3 : ((header.NewTCPHeader (p.Raw.drop p.hdrLen)).SetPayload val).Raw.length
      = (p.Raw.drop p.hdrLen).length := by
    rw [h2]
    simp only [copyAt_length, header.NewTCPHeader]
  rw [setTCPPayload_eq p _ val hnh hc]
  rw [updateTCP_copy _ ((header.NewTCPHeader (p.Raw.drop p.hdrLen)).SetPayload val)
    rfl (by simp only [copyAt_length, List.length_drop, h3])]
  refine ⟨rfl, ?_⟩
  simp only [copyAt_length]

lemma swap_diff_core (p : Packet) (val : List Nat)
    (hnh : p.NextHeader =
      some (.tcp (header.NewTCPHeader (p.Raw.drop p.hdrLen))))
    (hip : p.IpHdr = some (.v4 (header.NewIPv4Header p.Raw)))
    (hh : p.hdrLen ≤ p.Raw.length)
    (ht : tcpHdrLenOf (p.Raw.drop p.hdrLen) ≤ (p.Raw.drop p.hdrLen).length)
    (h4 : 4 ≤ p.Raw.length)
    (hdiff : val.length ≠ (p.Raw.drop p.hdrLen).length -
      tcpHdrLenOf (p.Raw.drop p.hdrLen)) :
    (p.SetTCPPayload val).UpdateTCPHeader.Raw.length =
      p.hdrLen + tcpHdrLenOf (p.Raw.drop p.hdrLen) + val.length ∧
    (p.SetTCPPayload val).UpdateTCPHeader.PacketLen =
      (p.SetTCPPayload val).UpdateTCPHeader.Raw.length ∧
    ipv4TotalLenField ((p.SetTCPPayload val).UpdateTCPHeader) =
      (p.SetTCPPayload val).UpdateTCPHeader.Raw.length % 65536 := by
  have hc : val.length ≠
      (header.NewTCPHeader (p.Raw.drop p.hdrLen)).Payload.length := by
    rw [newTCP_payload_length]
    exact hdiff
  have h2 := setPayload_ne_raw (header.NewTCPHeader (p.Raw.drop p.hdrLen)) val hc
  have h3 : ((header.NewTCPHeader (p.Raw.drop p.hdrLen)).SetPayload val).Raw.length
      = tcpHdrLenOf (p.Raw.drop p.hdrLen) + val.length := by
    rw [h2]
    simp only [List.length_append, List.length_take, List.length_drop,
      header.NewTCPHeader, tcpHdrLenOf] at ht ⊢
    omega
  have hne : ((header.NewTCPHeader (p.Raw.drop p.hdrLen)).SetPayload val).Raw.length
      ≠ (p.Raw.drop p.hdrLen).length := by
    rw [h3]
    simp only [List.length_drop] at ht hdiff ⊢
    omega
  rw [setTCPPayload_ne p _ val hnh hc]
  rw [updateTCP_rebuild _ ((header.NewTCPHeader (p.Raw.drop p.hdrLen)).SetPayload val)
    rfl (by simpa using hne)]
  have hlenraw : (p.Raw.take p.hdrLen ++
      ((header.NewTCPHeader (p.Raw.drop p.hdrLen)).SetPayload val).Raw).length =
      p.hdrLen + tcpHdrLenOf (p.Raw.drop p.hdrLen) + val.length := by
    simp only [List.length_append, List.length_take, h3]
    omega
  refine ⟨hlenraw, rfl, ?_⟩
  simp only [ipv4TotalLenField, hip]
  simp only [header.IPv4Header.SetTotalLen, header.NewIPv4Header,
    header.IPv4Header.TotalLen]
  rw [getD_set_ne _ 3 2 _ _ (by omega),
    getD_set_self _ 2 _ _ (by omega),
    getD_set_self _ 3 _ _ (by simp only [List.length_set]; omega)]
  exact u16_put_get _ (by omega)

/-- C1 (amended): on a parsed IPv4+TCP packet, replacing the TCP payload with
a same-length byte sequence (SetPayload then UpdateTCPHeader) leaves
`PacketLen` and the raw length unchanged; replacing it with a
different-length byte sequence updates `PacketLen` to `len(Raw)` and writes
`len(Raw) mod 65536` into the IPv4 total-length field — which equals
`len(Raw)` exactly whenever `len(Raw) ≤ 65535` (the field is a 16-bit
quantity, so larger results are truncated; see the counterexample). -/
theorem tcp_payload_replacement_lengths (p₀ : Packet) (val : List Nat)
    (hv : p₀.Raw.getD 0 0 >>> 4 = 4)
    (hproto : p₀.Raw.getD 9 0 = 6)
    (hh : ipv4HdrLenOf p₀.Raw ≤ p₀.Raw.length)
    (ht : tcpHdrLenOf (p₀.Raw.drop (ipv4HdrLenOf p₀.Raw)) ≤
      (p₀.Raw.drop (ipv4HdrLenOf p₀.Raw)).length)
    (h4 : 4 ≤ p₀.Raw.length) :
    (val.length = (p₀.Raw.drop (ipv4HdrLenOf p₀.Raw)).length -
        tcpHdrLenOf (p₀.Raw.drop (ipv4HdrLenOf p₀.Raw)) →
      (afterPayloadSwap p₀ val).PacketLen = p₀.PacketLen ∧
      (afterPayloadSwap p₀ val).Raw.length = p₀.Raw.length) ∧
    (val.length ≠ (p₀.Raw.drop (ipv4HdrLenOf p₀.Raw)).length -
        tcpHdrLenOf (p₀.Raw.drop (ipv4HdrLenOf p₀.Raw)) →
      (afterPayloadSwap p₀ val).PacketLen = (afterPayloadSwap p₀ val).Raw.length ∧
      (afterPayloadSwap p₀ val).Raw.length = ipv4HdrLenOf p₀.Raw +
        tcpHdrLenOf (p₀.Raw.drop (ipv4HdrLenOf p₀.Raw)) + val.length ∧
      ipv4TotalLenField (afterPayloadSwap p₀ val) =
        (afterPayloadSwap p₀ val).Raw.length % 65536 ∧
      ((afterPayloadSwap p₀ val).Raw.length < 65536 →
        ipv4TotalLenField (afterPayloadSwap p₀ val) =
          (afterPayloadSwap p₀ val).Raw.length)) := by
  have hq := parse_ipv4_tcp p₀ hv hproto
  have hraw : p₀.ParseHeaders.Raw = p₀.Raw := rfl
  have hhdr : p₀.ParseHeaders.hdrLen = ipv4HdrLenOf p₀.Raw := by rw [hq]
  have hnh : p₀.ParseHeaders.NextHeader = some (.tcp (header.NewTCPHeader
      (p₀.ParseHeaders.Raw.drop p₀.ParseHeaders.hdrLen))) := by rw [hq]
  have hip : p₀.ParseHeaders.IpHdr =
      some (.v4 (header.NewIPv4Header p₀.ParseHeaders.Raw)) := by rw [hq]
  unfold afterPayloadSwap
  constructor
  · intro hs
    have hcore := swap_same_core p₀.ParseHeaders val hnh
      (by rw [hraw, hhdr]; exact hs)
    exact ⟨hcore.1.trans (parseHeaders_packetLen p₀),
      hcore.2.trans (congrArg List.length hraw)⟩
  · intro hs
    have hcore := swap_diff_core p₀.ParseHeaders val hnh
      (by rw [hip, hraw]) (by rw [hraw, hhdr]; exact hh)
      (by rw [hraw, hhdr]; exact ht) (by rw [hraw]; exact h4)
      (by rw [hraw, hhdr]; exact hs)
    rw [hraw, hhdr] at hcore
    exact ⟨hcore.2.1, hcore.1, hcore.2.2, fun hlt => by
      rw [hcore.2.2, Nat.mod_eq_of_lt hlt]⟩

/-- C1 counterexample: `pkt0` (20-byte IPv4 header, 20-byte TCP header, empty
payload) given a 65536-byte payload: the rebuilt packet has
`len(Raw) = PacketLen = 65576`, but the IPv4 total-length field reads
`65576 mod 65536 = 40` — not `len(Raw)` "exactly" as claimed. -/
theorem tcp_payload_resize_truncates_total_length_cex :
    (afterPayloadSwap pkt0 (List.replicate 65536 0)).Raw.length = 65576 ∧
    (afterPayloadSwap pkt0 (List.replicate 65536 0)).PacketLen = 65576 ∧
    ipv4TotalLenField (afterPayloadSwap pkt0 (List.replicate 65536 0)) = 40 ∧
    ipv4TotalLenField (afterPayloadSwap pkt0 (List.replicate 65536 0)) ≠
      (afterPayloadSwap pkt0 (List.replicate 65536 0)).Raw.length := by
  have hq := parse_ipv4_tcp pkt0 (by decide) (by decide)
  have hnh : pkt0.ParseHeaders.NextHeader = some (.tcp (header.NewTCPHeader
      (pkt0.ParseHeaders.Raw.drop pkt0.ParseHeaders.hdrLen))) := by rw [hq]
  have hip : pkt0.ParseHeaders.IpHdr =
      some (.v4 (header.NewIPv4Header pkt0.ParseHeaders.Raw)) := by rw [hq]
  have hcore := swap_diff_core pkt0.ParseHeaders (List.replicate 65536 0) hnh hip
    (by decide) (by decide) (by decide)
    (by simp only [List.length_replicate]; decide)
  have e1 : pkt0.ParseHeaders.hdrLen = 20 := by decide
  have e2 : tcpHdrLenOf (pkt0.ParseHeaders.Raw.drop pkt0.ParseHeaders.hdrLen)
      = 20 := by decide
  have e3 : (List.replicate (65536 : Nat) (0 : Nat)).length = 65536 :=
    List.length_replicate 65536 0
  rw [e2, e1, e3] at hcore
  unfold afterPayloadSwap
  have hL : ((pkt0.ParseHeaders.SetTCPPayload
      (List.replicate 65536 0)).UpdateTCPHeader).Raw.length = 65576 := by
    rw [hcore.1]
  refine ⟨hL, ?_, ?_, ?_⟩
  · rw [hcore.2.1, hL]
  · rw [hcore.2.2, hL]
  · rw [hcore.2.2, hL]
    norm_num

/-- C1 witness: the amended statement at `pkt0`, with a same-length (empty)
replacement payload and a different-length one-byte payload. -/
theorem tcp_payload_replacement_lengths_witness :
    (pkt0.Raw.getD 0 0 >>> 4 = 4 ∧ pkt0.Raw.getD 9 0 = 6 ∧
      ipv4HdrLenOf pkt0.Raw ≤ pkt0.Raw.length ∧
      tcpHdrLenOf (pkt0.Raw.drop (ipv4HdrLenOf pkt0.Raw)) ≤
        (pkt0.Raw.drop (ipv4HdrLenOf pkt0.Raw)).length ∧
      4 ≤ pkt0.Raw.length) ∧
    ((afterPayloadSwap pkt0 []).PacketLen = pkt0.PacketLen ∧
      (afterPayloadSwap pkt0 []).Raw.length = pkt0.Raw.length) ∧
    ((afterPayloadSwap pkt0 [5]).PacketLen =
        (afterPayloadSwap pkt0 [5]).Raw.length ∧
      (afterPayloadSwap pkt0 [5]).Raw.length = ipv4HdrLenOf pkt0.Raw +
        tcpHdrLenOf (pkt0.Raw.drop (ipv4HdrLenOf pkt0.Raw)) +
        ([5] : List Nat).length ∧
      ipv4TotalLenField (afterPayloadSwap pkt0 [5]) =
        (afterPayloadSwap pkt0 [5]).Raw.length % 65536 ∧
      ((afterPayloadSwap pkt0 [5]).Raw.length < 65536 →
        ipv4TotalLenField (afterPayloadSwap pkt0 [5]) =
          (afterPayloadSwap pkt0 [5]).Raw.length)) :=
  ⟨⟨by decide, by decide, by decide, by decide, by decide⟩,
    (tcp_payload_replacement_lengths pkt0 [] (by decide) (by decide)
      (by decide) (by decide) (by decide)).1 (by decide),
    (tcp_payload_replacement_lengths pkt0 [5] (by decide) (by decide)
      (by decide) (by decide) (by decide)).2 (by decide)⟩

end GoDivert
